import Mathlib

/-!
Shallow embedding of `src/client/src/App.tsx` (WillianJC/ML_Fruits), a
browser fruit-classifier: model loading, image preprocessing, inference,
and the webcam start/stop orchestration, together with proofs of the
spec's claims about them.

Conventions of the embedding:
* JavaScript numbers are modelled as rationals (`ℚ`); pixel values read
  from an image element are naturals in `[0,255]`.
* A tensor is a shape (list of dimension sizes) plus a total function
  from multi-indices to values; only in-range indices are meaningful.
* The React component state (`useState`/`useRef` fields) is an explicit
  `AppState` record; each handler is a state transformer.
* Asynchronous effects that can fail (model fetch, `getUserMedia`,
  `model.predict`) are parametrised by an explicit outcome argument, so
  each execution path of the source is a branch of the Lean function.
-/

/-- The constant `FRUIT_CLASSES` from App.tsx line 5: the fixed closed set of class labels. -/
def FRUIT_CLASSES : List String := ["Manzana", "Plátano", "Naranja"]

/-- The constant `IMAGE_SIZE` from App.tsx line 6: the fixed spatial size of model inputs. -/
def IMAGE_SIZE : Nat := 128

/-- The `Prediction` interface (App.tsx lines 8-11).  `fruit` is `Option String`
because the source stores `FRUIT_CLASSES[maxIndex]`, which is the JS value
`undefined` (here `none`) when the index is out of range. -/
structure Prediction where
  fruit : Option String
  confidence : ℚ
deriving DecidableEq, Repr

/-- A visual source (`HTMLImageElement`/`HTMLVideoElement`): its pixel grid.
`pixel y x c` is the integer value of channel `c` at row `y`, column `x`. -/
structure ImageElem where
  height : ℕ
  width : ℕ
  pixel : ℕ → ℕ → ℕ → ℕ

/-- A tensor: a shape together with its values at every multi-index. -/
structure STensor where
  shape : List ℕ
  data : List ℕ → ℚ

/-- Embedding of `tf.browser.fromPixels(imageElement)`: an int tensor of shape
`[height, width, 3]` whose entries are the pixel channel values. -/
def fromPixels (img : ImageElem) : STensor where
  shape := [img.height, img.width, 3]
  data := fun idx =>
    match idx with
    | [y, x, c] => (img.pixel y x c : ℚ)
    | _ => 0

/-- Embedding of `tf.image.resizeBilinear(tensor, [newH, newW])` with the default
`alignCorners = false`, `halfPixelCenters = false` (the call at App.tsx
line 72 passes neither flag): for each output cell the source coordinate is
`(oldSize / newSize) * outIndex`; the four surrounding pixels (floor/ceil,
ceil clamped to the last row/column) are blended with the fractional parts. -/
def resizeBilinear (t : STensor) (newH newW : ℕ) : STensor :=
  let oldH := t.shape.getD 0 0
  let oldW := t.shape.getD 1 0
  let channels := t.shape.getD 2 0
  let rowRatio : ℚ := (oldH : ℚ) / (newH : ℚ)
  let colRatio : ℚ := (oldW : ℚ) / (newW : ℚ)
  { shape := [newH, newW, channels]
    data := fun idx =>
      match idx with
      | [r, c, ch] =>
        let sfr : ℚ := rowRatio * (r : ℚ)
        let sfc : ℚ := colRatio * (c : ℚ)
        let rowFloor : ℕ := (Int.floor sfr).toNat
        let rowCeil : ℕ := min (oldH - 1) (Int.ceil sfr).toNat
        let colFloor : ℕ := (Int.floor sfc).toNat
        let colCeil : ℕ := min (oldW - 1) (Int.ceil sfc).toNat
        let rowFrac : ℚ := sfr - (rowFloor : ℚ)
        let colFrac : ℚ := sfc - (colFloor : ℚ)
        let topLeft := t.data [rowFloor, colFloor, ch]
        let topRight := t.data [rowFloor, colCeil, ch]
        let bottomLeft := t.data [rowCeil, colFloor, ch]
        let bottomRight := t.data [rowCeil, colCeil, ch]
        let top := topLeft + (topRight - topLeft) * colFrac
        let bottom := bottomLeft + (bottomRight - bottomLeft) * colFrac
        top + (bottom - top) * rowFrac
      | _ => 0 }

/-- Embedding of `tensor.div(255.0)` (App.tsx line 75): elementwise division by 255. -/
def div255 (t : STensor) : STensor where
  shape := t.shape
  data := fun idx => t.data idx / 255

/-- Embedding of `tensor.expandDims(0)` (App.tsx line 78): prepend a batch dimension of
size 1; index `b :: rest` reads the original tensor at `rest`. -/
def expandDims0 (t : STensor) : STensor where
  shape := 1 :: t.shape
  data := fun idx =>
    match idx with
    | _ :: rest => t.data rest
    | [] => 0

/-- Embedding of `preprocessImage` (App.tsx lines 64-80): pixels → resize to
`IMAGE_SIZE × IMAGE_SIZE` → divide by 255 → add batch dimension. -/
def preprocessImage (img : ImageElem) : STensor :=
  expandDims0 (div255 (resizeBilinear (fromPixels img) IMAGE_SIZE IMAGE_SIZE))

/-- Embedding of `Math.max(a, b)` on two (non-NaN) JS numbers: the larger of the two. -/
def jsMax2 (a b : ℚ) : ℚ := if a ≤ b then b else a

/-- Embedding of `Math.max(...probs)` on a list of JS numbers.  On the empty list JS
yields `-Infinity`, which a model output over three classes never is; the
empty case is modelled as `0` and every claim hypothesises nonemptiness. -/
def jsMax : List ℚ → ℚ
  | [] => 0
  | a :: rest => rest.foldl jsMax2 a

/-- Embedding of `probs.indexOf(x)`: the first index holding `x`.  JS returns `-1` when
`x` is absent; the embedding returns `length`, and every use looks up the
maximum, which is always present in a nonempty list. -/
def jsIndexOf (x : ℚ) : List ℚ → ℕ
  | [] => 0
  | a :: rest => if a = x then 0 else jsIndexOf x rest + 1

/-- The selection step of `predictImage` (App.tsx lines 93-102): the index of
the first maximal probability, the label at that index, and the probability
scaled to a percentage. -/
def selectPrediction (labels : List String) (probs : List ℚ) : Prediction where
  fruit := labels.get? (jsIndexOf (jsMax probs) probs)
  confidence := probs.getD (jsIndexOf (jsMax probs) probs) 0 * 100

example : selectPrediction FRUIT_CLASSES [1/10, 7/10, 2/10] =
    { fruit := some "Plátano", confidence := 70 } := by
  norm_num [selectPrediction, jsMax, jsMax2, jsIndexOf, FRUIT_CLASSES, List.getD]

/-- A `MediaStreamTrack` acquired from `getUserMedia`: its id and whether
`track.stop()` has been called on it. -/
structure Track where
  id : ℕ
  stopped : Bool
deriving DecidableEq, Repr

/-- The component state of `App` (App.tsx lines 14-22): the `useState`
fields (`model`, `isModelLoading`, `webcamActive`, `prediction`,
`imagePreview`) and the `useRef` fields that carry behaviour
(`videoRef.current.srcObject`, `intervalRef.current`).  The bookkeeping
fields record the environment: `tracks` is every camera track ever acquired
(with its stopped flag), `activeTimers` the ids of intervals created by
`setInterval` and not yet cleared, and the `next…` counters mint fresh ids.
The model handle is opaque (`Option Unit`): present or absent. -/
structure AppState where
  model : Option Unit
  isModelLoading : Bool
  webcamActive : Bool
  prediction : Option Prediction
  imagePreview : Option String
  srcObject : Option (List ℕ)
  intervalRef : Option ℕ
  tracks : List Track
  activeTimers : List ℕ
  nextTrackId : ℕ
  nextTimerId : ℕ
deriving DecidableEq, Repr

/-- The initial component state: all `useState` initialisers at App.tsx
lines 14-18 and null refs. -/
def initialState : AppState where
  model := none
  isModelLoading := true
  webcamActive := false
  prediction := none
  imagePreview := none
  srcObject := none
  intervalRef := none
  tracks := []
  activeTimers := []
  nextTrackId := 0
  nextTimerId := 0

/-- Outcome of the `tf.loadLayersModel` fetch inside `loadModel`. -/
inductive LoadOutcome where
  | success
  | failure
deriving DecidableEq, Repr

/-- Embedding of `loadModel` (App.tsx lines 26-59): on success the handle is stored; on
any error the handle is left as it was (absent at startup) and an alert is
shown; either way `isModelLoading` ends false (the `finally` block).  The
returned flag records whether the error alert was raised. -/
def loadModel (outcome : LoadOutcome) (s : AppState) : AppState × Bool :=
  match outcome with
  | .success => ({ s with model := some (), isModelLoading := false }, false)
  | .failure => ({ s with isModelLoading := false }, true)

/-- What the tensor runtime does inside the `try` block of `predictImage`:
the forward pass and value extraction succeed with probability vector
`probs`, or `model.predict` throws, or `predictions.data()` throws. -/
inductive ForwardOutcome where
  | ok (probs : List ℚ)
  | errAtPredict
  | errAtData
deriving DecidableEq, Repr

/-- Allocation/disposal ledger for the two tensors a `predictImage` call
owns: `preprocessed` (the preprocessing result) and `predictions` (the raw
model output). -/
structure TensorLog where
  preprocessedAllocated : Bool
  preprocessedDisposed : Bool
  predictionsAllocated : Bool
  predictionsDisposed : Bool
deriving DecidableEq, Repr

/-- Ledger of a call that allocated nothing. -/
def TensorLog.none : TensorLog :=
  ⟨false, false, false, false⟩

/-- Result of one `predictImage` call: the state afterwards, the tensor
ledger, whether `console.error` ran (the `catch` block), and whether an
exception escaped the call. -/
structure PredictResult where
  state : AppState
  tensors : TensorLog
  errorLogged : Bool
  threw : Bool
deriving DecidableEq, Repr

/-- Embedding of `predictImage` (App.tsx lines 83-110).  `if (!model) return;` is the
guard branch; otherwise the `try` block preprocesses (allocating
`preprocessed`), runs the forward pass (allocating `predictions`), extracts
the probabilities, stores the new `Prediction`, then disposes both tensors.
An exception thrown by `model.predict` or `predictions.data()` jumps to the
`catch`, which only logs — so on those paths the already-allocated tensors
are never disposed.  No path rethrows. -/
def predictImage (outcome : ForwardOutcome) (s : AppState) : PredictResult :=
  match s.model with
  | none => ⟨s, TensorLog.none, false, false⟩
  | some _ =>
    match outcome with
    | .errAtPredict =>
      ⟨s, ⟨true, false, false, false⟩, true, false⟩
    | .errAtData =>
      ⟨s, ⟨true, false, true, false⟩, true, false⟩
    | .ok probs =>
      ⟨{ s with prediction := some (selectPrediction FRUIT_CLASSES probs) },
       ⟨true, true, true, true⟩, false, false⟩

/-- Embedding of `startWebcam` (App.tsx lines 113-134), parametrised by whether
`getUserMedia` grants access.  On grant (and with the video element
mounted, which it is whenever the button is reachable) the stream's track
is attached to the video element, `webcamActive` is set, and a fresh
interval is registered — the previous value of `intervalRef` is
overwritten without being cleared.  On denial the `catch` alerts and the
state is untouched. -/
def startWebcam (grant : Bool) (s : AppState) : AppState :=
  if grant then
    { s with
      srcObject := some [s.nextTrackId]
      tracks := s.tracks ++ [⟨s.nextTrackId, false⟩]
      nextTrackId := s.nextTrackId + 1
      webcamActive := true
      intervalRef := some s.nextTimerId
      activeTimers := s.activeTimers ++ [s.nextTimerId]
      nextTimerId := s.nextTimerId + 1 }
  else s

/-- Embedding of `track.stop()` applied to every track of the stream with ids `ids`. -/
def stopTracks (ids : List ℕ) (tracks : List Track) : List Track :=
  tracks.map fun t => if t.id ∈ ids then { t with stopped := true } else t

/-- Embedding of `stopWebcam` (App.tsx lines 137-151): if a stream is attached, stop its
tracks and detach it; if an interval handle is held, clear that interval
and null the handle; then unconditionally set `webcamActive` false and
clear the current `Prediction`.  Every statement is guarded or total, so
the function never throws. -/
def stopWebcam (s : AppState) : AppState :=
  let s1 :=
    match s.srcObject with
    | some ids => { s with tracks := stopTracks ids s.tracks, srcObject := none }
    | none => s
  let s2 :=
    match s1.intervalRef with
    | some tid =>
      { s1 with activeTimers := s1.activeTimers.filter (fun x => x ≠ tid),
                intervalRef := none }
    | none => s1
  { s2 with webcamActive := false, prediction := none }

example :
    (startWebcam true initialState).activeTimers = [0] ∧
    (stopWebcam (startWebcam true initialState)).activeTimers = [] := by
  decide

/-! Helper lemmas about the JS `Math.max` / `indexOf` pair used by the
selection step. -/

theorem foldl_jsMax2_mem (l : List ℚ) (a : ℚ) : l.foldl jsMax2 a ∈ a :: l := by
  induction l generalizing a with
  | nil => simp [List.foldl]
  | cons b t ih =>
    simp only [List.foldl]
    rcases List.mem_cons.1 (ih (jsMax2 a b)) with h1 | h1
    · rw [h1]
      by_cases hab : a ≤ b
      · simp [jsMax2, hab]
      · simp [jsMax2, hab]
    · simp [List.mem_cons, h1]

theorem le_foldl_jsMax2_self (l : List ℚ) (a : ℚ) : a ≤ l.foldl jsMax2 a := by
  induction l generalizing a with
  | nil => simp [List.foldl]
  | cons b t ih =>
    simp only [List.foldl]
    refine le_trans ?_ (ih (jsMax2 a b))
    by_cases h : a ≤ b
    · simp [jsMax2, h]
    · simp [jsMax2, h]

theorem le_foldl_jsMax2 (l : List ℚ) (a x : ℚ) (hx : x ∈ a :: l) :
    x ≤ l.foldl jsMax2 a := by
  induction l generalizing a with
  | nil =>
    simp only [List.mem_cons, List.not_mem_nil, or_false] at hx
    simp [List.foldl, hx]
  | cons b t ih =>
    simp only [List.foldl]
    have hma : a ≤ jsMax2 a b := by
      by_cases h : a ≤ b
      · simp [jsMax2, h]
      · simp [jsMax2, h]
    have hmb : b ≤ jsMax2 a b := by
      by_cases h : a ≤ b
      · simp [jsMax2, h]
      · simp [jsMax2, h]; linarith [lt_of_not_le h]
    have hself : jsMax2 a b ≤ t.foldl jsMax2 (jsMax2 a b) :=
      le_foldl_jsMax2_self t (jsMax2 a b)
    rcases List.mem_cons.1 hx with rfl | hx1
    · exact le_trans hma hself
    rcases List.mem_cons.1 hx1 with rfl | hx2
    · exact le_trans hmb hself
    · exact ih (jsMax2 a b) (List.mem_cons_of_mem _ hx2)

theorem jsMax_mem {l : List ℚ} (h : l ≠ []) : jsMax l ∈ l := by
  cases l with
  | nil => exact absurd rfl h
  | cons a t => exact foldl_jsMax2_mem t a

theorem le_jsMax {l : List ℚ} {x : ℚ} (hx : x ∈ l) : x ≤ jsMax l := by
  cases l with
  | nil => cases hx
  | cons a t => exact le_foldl_jsMax2 t a x hx

theorem jsIndexOf_lt_length {x : ℚ} {l : List ℚ} (h : x ∈ l) :
    jsIndexOf x l < l.length := by
  induction l with
  | nil => cases h
  | cons a t ih =>
    simp only [jsIndexOf, List.length_cons]
    by_cases hax : a = x
    · simp [hax]
    · simp only [hax, if_false]
      rcases List.mem_cons.1 h with h1 | h1
      · exact absurd h1.symm hax
      · have := ih h1; omega

theorem getD_jsIndexOf {x : ℚ} {l : List ℚ} (h : x ∈ l) :
    l.getD (jsIndexOf x l) 0 = x := by
  induction l with
  | nil => cases h
  | cons a t ih =>
    simp only [jsIndexOf]
    by_cases hax : a = x
    · simp [hax]
    · simp only [hax, if_false, List.getD_cons_succ]
      rcases List.mem_cons.1 h with h1 | h1
      · exact absurd h1.symm hax
      · exact ih h1

theorem getD_ne_of_lt_jsIndexOf {x : ℚ} {l : List ℚ} {j : ℕ}
    (hj : j < jsIndexOf x l) : l.getD j 0 ≠ x := by
  induction l generalizing j with
  | nil => simp [jsIndexOf] at hj
  | cons a t ih =>
    simp only [jsIndexOf] at hj
    by_cases hax : a = x
    · simp [hax] at hj
    · simp only [hax, if_false] at hj
      cases j with
      | zero => simpa using hax
      | succ k =>
        simp only [List.getD_cons_succ]
        exact ih (by omega)

/-! Helper lemmas for the preprocessing bounds. -/

theorem lerp_bounds {lo hi a b t : ℚ} (ha1 : lo ≤ a) (ha2 : a ≤ hi)
    (hb1 : lo ≤ b) (hb2 : b ≤ hi) (ht1 : 0 ≤ t) (ht2 : t ≤ 1) :
    lo ≤ a + (b - a) * t ∧ a + (b - a) * t ≤ hi := by
  constructor <;> nlinarith

theorem floorIdx_lt {n m : ℕ} (r : ℕ) (hn : 0 < n) (hm : 0 < m) (hr : r < m) :
    (Int.floor ((n : ℚ) / (m : ℚ) * (r : ℚ))).toNat < n := by
  have hmq : (0 : ℚ) < (m : ℚ) := by exact_mod_cast hm
  have hq : (n : ℚ) / (m : ℚ) * (r : ℚ) < (n : ℚ) := by
    rw [div_mul_eq_mul_div, div_lt_iff₀ hmq]
    have hrq : (r : ℚ) < (m : ℚ) := by exact_mod_cast hr
    have hnq : (0 : ℚ) < (n : ℚ) := by exact_mod_cast hn
    nlinarith
  have hfloor : Int.floor ((n : ℚ) / (m : ℚ) * (r : ℚ)) < (n : ℤ) := by
    apply Int.floor_lt.2
    push_cast
    exact hq
  omega

theorem fracNat_bounds {q : ℚ} (hq : 0 ≤ q) :
    0 ≤ q - ((Int.floor q).toNat : ℚ) ∧ q - ((Int.floor q).toNat : ℚ) ≤ 1 := by
  have h0 : (0 : ℤ) ≤ Int.floor q := Int.floor_nonneg.2 hq
  have hc : ((Int.floor q).toNat : ℚ) = ((Int.floor q : ℤ) : ℚ) := by
    exact_mod_cast congrArg (fun z : ℤ => (z : ℚ)) (Int.toNat_of_nonneg h0)
  constructor
  · rw [hc]; linarith [Int.floor_le q]
  · rw [hc]; linarith [Int.lt_floor_add_one q]

theorem div255_bounds {v : ℚ} (h0 : 0 ≤ v) (h255 : v ≤ 255) :
    0 ≤ v / 255 ∧ v / 255 ≤ 1 := by
  constructor
  · positivity
  · rw [div_le_one (by norm_num)]; exact h255

theorem bilinear_div255_bounds {tl tr bl br cf rf : ℚ}
    (htl0 : 0 ≤ tl) (htl1 : tl ≤ 255) (htr0 : 0 ≤ tr) (htr1 : tr ≤ 255)
    (hbl0 : 0 ≤ bl) (hbl1 : bl ≤ 255) (hbr0 : 0 ≤ br) (hbr1 : br ≤ 255)
    (hcf0 : 0 ≤ cf) (hcf1 : cf ≤ 1) (hrf0 : 0 ≤ rf) (hrf1 : rf ≤ 1) :
    0 ≤ (tl + (tr - tl) * cf + (bl + (br - bl) * cf - (tl + (tr - tl) * cf)) * rf) / 255 ∧
      (tl + (tr - tl) * cf + (bl + (br - bl) * cf - (tl + (tr - tl) * cf)) * rf) / 255 ≤ 1 := by
  have htop := lerp_bounds htl0 htl1 htr0 htr1 hcf0 hcf1
  have hbot := lerp_bounds hbl0 hbl1 hbr0 hbr1 hcf0 hcf1
  have hval := lerp_bounds htop.1 htop.2 hbot.1 hbot.2 hrf0 hrf1
  exact div255_bounds hval.1 hval.2

/-! The claims. -/

/-- C1: For a probability vector produced by the model, the inference engine
selects the class with maximal probability — the chosen index is in range,
carries a probability at least every entry of the vector, and every earlier
entry is strictly smaller (first maximum in label order) — and the emitted
`Prediction` holds the label at that index with its probability scaled to a
percentage; in particular on the fixed vector `[0.1, 0.7, 0.2]` over the
label set `[A, B, C]` it reports label `B` with confidence `70`. -/
theorem C1_selects_first_max (labels : List String) (probs : List ℚ)
    (s : AppState) (hne : probs ≠ []) (hm : s.model = some ()) :
    (jsIndexOf (jsMax probs) probs < probs.length ∧
      (∀ j, j < probs.length →
        probs.getD j 0 ≤ probs.getD (jsIndexOf (jsMax probs) probs) 0) ∧
      (∀ j, j < jsIndexOf (jsMax probs) probs →
        probs.getD j 0 < probs.getD (jsIndexOf (jsMax probs) probs) 0) ∧
      (selectPrediction labels probs).fruit =
        labels.get? (jsIndexOf (jsMax probs) probs) ∧
      (selectPrediction labels probs).confidence =
        probs.getD (jsIndexOf (jsMax probs) probs) 0 * 100) ∧
    (predictImage (.ok probs) s).state.prediction =
      some (selectPrediction FRUIT_CLASSES probs) ∧
    selectPrediction ["A", "B", "C"] [1/10, 7/10, 2/10] =
      { fruit := some "B", confidence := 70 } := by
  have hmem := jsMax_mem hne
  have hlt := jsIndexOf_lt_length hmem
  have hgetD := getD_jsIndexOf hmem
  refine ⟨⟨hlt, ?_, ?_, rfl, rfl⟩, ?_, ?_⟩
  · intro j hj
    rw [hgetD, List.getD_eq_getElem probs 0 hj]
    exact le_jsMax (List.getElem_mem hj)
  · intro j hj
    have hjlen : j < probs.length := lt_trans hj hlt
    refine lt_of_le_of_ne ?_ ?_
    · rw [hgetD, List.getD_eq_getElem probs 0 hjlen]
      exact le_jsMax (List.getElem_mem hjlen)
    · rw [hgetD]
      exact getD_ne_of_lt_jsIndexOf hj
  · simp only [predictImage, hm]
  · norm_num [selectPrediction, jsMax, jsMax2, jsIndexOf, List.getD]

/-- Witness for C1 at the concrete mock of the spec: the probability vector
`[0.1, 0.7, 0.2]` over the label set `[A, B, C]` yields label `B` with
confidence `70`. -/
theorem C1_selects_first_max_witness :
    selectPrediction ["A", "B", "C"] [1/10, 7/10, 2/10] =
      { fruit := some "B", confidence := 70 } :=
  (C1_selects_first_max ["A", "B", "C"] [1/10, 7/10, 2/10]
    { initialState with model := some () } (by simp) rfl).2.2

/-- C2: For every visual input with at least one pixel and native pixel
values in `[0, 255]`, the preprocessor outputs a tensor of shape
`[1, 128, 128, 3]` — a leading batch dimension of size 1 and both spatial
dimensions equal to the configured `IMAGE_SIZE = 128` — whose values at
every in-range index lie in `[0, 1]`. -/
theorem C2_preprocess_shape_and_range (img : ImageElem)
    (hH : 0 < img.height) (hW : 0 < img.width)
    (hpix : ∀ y x c, y < img.height → x < img.width → c < 3 →
      img.pixel y x c ≤ 255) :
    (preprocessImage img).shape = [1, IMAGE_SIZE, IMAGE_SIZE, 3] ∧
    IMAGE_SIZE = 128 ∧
    ∀ r c ch, r < IMAGE_SIZE → c < IMAGE_SIZE → ch < 3 →
      0 ≤ (preprocessImage img).data [0, r, c, ch] ∧
      (preprocessImage img).data [0, r, c, ch] ≤ 1 := by
  refine ⟨rfl, rfl, ?_⟩
  intro r c ch hr hc hch
  simp only [preprocessImage, expandDims0, div255, resizeBilinear, fromPixels,
    List.getD_cons_zero, List.getD_cons_succ, IMAGE_SIZE]
  have h128 : (0 : ℕ) < 128 := by norm_num
  have hr128 : r < 128 := hr
  have hc128 : c < 128 := hc
  have hrF : (Int.floor ((img.height : ℚ) / ((128 : ℕ) : ℚ) * (r : ℚ))).toNat
      < img.height := floorIdx_lt r hH h128 hr128
  have hcF : (Int.floor ((img.width : ℚ) / ((128 : ℕ) : ℚ) * (c : ℚ))).toNat
      < img.width := floorIdx_lt c hW h128 hc128
  have hrC : (img.height - 1) ⊓
      (Int.ceil ((img.height : ℚ) / ((128 : ℕ) : ℚ) * (r : ℚ))).toNat
      < img.height := by omega
  have hcC : (img.width - 1) ⊓
      (Int.ceil ((img.width : ℚ) / ((128 : ℕ) : ℚ) * (c : ℚ))).toNat
      < img.width := by omega
  refine bilinear_div255_bounds ?_ ?_ ?_ ?_ ?_ ?_ ?_ ?_ ?_ ?_ ?_ ?_
  · exact Nat.cast_nonneg _
  · exact_mod_cast hpix _ _ _ hrF hcF hch
  · exact Nat.cast_nonneg _
  · exact_mod_cast hpix _ _ _ hrF hcC hch
  · exact Nat.cast_nonneg _
  · exact_mod_cast hpix _ _ _ hrC hcF hch
  · exact Nat.cast_nonneg _
  · exact_mod_cast hpix _ _ _ hrC hcC hch
  · exact (fracNat_bounds (by positivity)).1
  · exact (fracNat_bounds (by positivity)).2
  · exact (fracNat_bounds (by positivity)).1
  · exact (fracNat_bounds (by positivity)).2

/-- A concrete 1×1 grey test image. -/
def testImage : ImageElem where
  height := 1
  width := 1
  pixel := fun _ _ _ => 100

/-- Witness for C2 at a concrete image: the preprocessed tensor has shape
`[1, 128, 128, 3]` and values in `[0, 1]`. -/
theorem C2_preprocess_shape_and_range_witness :
    (preprocessImage testImage).shape = [1, IMAGE_SIZE, IMAGE_SIZE, 3] ∧
    IMAGE_SIZE = 128 ∧
    ∀ r c ch, r < IMAGE_SIZE → c < IMAGE_SIZE → ch < 3 →
      0 ≤ (preprocessImage testImage).data [0, r, c, ch] ∧
      (preprocessImage testImage).data [0, r, c, ch] ≤ 1 :=
  C2_preprocess_shape_and_range testImage (by decide) (by decide)
    (by intro y x c hy hx hc; norm_num [testImage])

/-- A state in which the model has loaded: the handle is present and the
loading flag is down. -/
def readyState : AppState :=
  { initialState with model := some (), isModelLoading := false }

/-- The canonical `Active` webcam state: `startWebcam` succeeded once from
the ready state. -/
def activeState : AppState := startWebcam true readyState

/-- C3 (checked at the failing inputs): on the successful path
`predictImage` disposes both the preprocessed tensor and the raw output
tensor, but when `model.predict` throws the preprocessed tensor is
allocated and never disposed, and when `predictions.data()` throws both
tensors are allocated and never disposed — the `catch` only logs, so the
"released on every execution path" requirement fails on the error paths. -/
theorem C3_dispose_only_on_success :
    (predictImage (.ok [1, 0, 0]) readyState).tensors =
      ⟨true, true, true, true⟩ ∧
    (predictImage .errAtPredict readyState).tensors =
      ⟨true, false, false, false⟩ ∧
    (predictImage .errAtData readyState).tensors =
      ⟨true, false, true, false⟩ :=
  ⟨rfl, rfl, rfl⟩

/-- C4 (checked at the failing input): calling `startWebcam` twice with
both grants succeeding and no intervening `stopWebcam` leaves two active
interval timers — the second call overwrites `intervalRef` without clearing
the first interval — and a subsequent `stopWebcam` clears only the second,
leaving the orphaned first timer running. -/
theorem C4_double_start_two_timers :
    (startWebcam true (startWebcam true initialState)).activeTimers = [0, 1] ∧
    (startWebcam true (startWebcam true initialState)).intervalRef = some 1 ∧
    (stopWebcam (startWebcam true (startWebcam true initialState))).activeTimers
      = [0] := by
  refine ⟨rfl, rfl, ?_⟩
  decide

/-- C5: with the model handle absent, every `predictImage` call is a no-op:
the state is untouched, no tensor is allocated, nothing is logged and
nothing is thrown.  After a failed model load at startup the handle is
absent, loading is over, the user-visible alert fired, and every subsequent
inference call is such a no-op. -/
theorem C5_absent_model_noop (s : AppState) (outcome : ForwardOutcome)
    (hm : s.model = none) :
    predictImage outcome s = ⟨s, TensorLog.none, false, false⟩ ∧
    (loadModel .failure initialState).1.model = none ∧
    (loadModel .failure initialState).1.isModelLoading = false ∧
    (loadModel .failure initialState).2 = true ∧
    (∀ o, predictImage o (loadModel .failure initialState).1 =
      ⟨(loadModel .failure initialState).1, TensorLog.none, false, false⟩) := by
  refine ⟨?_, rfl, rfl, rfl, fun o => rfl⟩
  simp only [predictImage, hm]

/-- Witness for C5: at startup (no model yet) a `predictImage` call leaves
everything untouched. -/
theorem C5_absent_model_noop_witness :
    predictImage .errAtPredict initialState =
      ⟨initialState, TensorLog.none, false, false⟩ :=
  (C5_absent_model_noop initialState .errAtPredict rfl).1

/-- A reachable state in which the webcam is inactive but a `Prediction`
produced by the upload flow is displayed. -/
def inactiveWithPrediction : AppState :=
  { initialState with
    model := some ()
    isModelLoading := false
    prediction := some { fruit := some "Manzana", confidence := 50 }
    imagePreview := some "data-url" }

/-- Counterexample to C6 as stated: calling `stopWebcam` in an inactive
state that displays a `Prediction` (reachable by uploading an image while
the webcam is off) clears that `Prediction`, so the application state is
not left unchanged. -/
theorem C6_counterexample :
    stopWebcam inactiveWithPrediction ≠ inactiveWithPrediction := by
  intro h
  have h2 := congrArg AppState.prediction h
  simp [stopWebcam, inactiveWithPrediction, initialState] at h2

/-- C6 (amended): calling `stopWebcam` when the webcam is already inactive
(no stream attached, no interval held, flag down) does not throw — every
statement of the source function is guarded, so it is modelled as a total
function — and leaves the model handle, preview image, timer handle and
camera tracks unchanged, but unconditionally clears the current
`Prediction`; the state is completely unchanged exactly when no
`Prediction` was displayed. -/
theorem C6_stop_inactive (s : AppState) (h1 : s.srcObject = none)
    (h2 : s.intervalRef = none) (h3 : s.webcamActive = false) :
    stopWebcam s = { s with prediction := none } ∧
    (s.prediction = none → stopWebcam s = s) := by
  have hs : stopWebcam s = { s with webcamActive := false, prediction := none } := by
    simp only [stopWebcam, h1, h2]
  constructor
  · rw [hs]; cases s; simp_all
  · intro hp; rw [hs]; cases s; simp_all

/-- Witness for C6 (amended) at the initial state, which is inactive and
displays no `Prediction`: `stopWebcam` leaves it unchanged. -/
theorem C6_stop_inactive_witness :
    stopWebcam initialState = { initialState with prediction := none } ∧
    (initialState.prediction = none → stopWebcam initialState = initialState) :=
  C6_stop_inactive initialState rfl rfl rfl

/-- C7: from an `Active` webcam state — a stream attached whose track ids
cover every not-yet-stopped camera track, the interval handle held, and
that timer the only active one — `stopWebcam` halts the periodic loop (no
active timer remains, the handle is cleared), stops every camera track,
clears the display surface and the current `Prediction`, and marks the
webcam inactive. -/
theorem C7_stop_releases_all (s : AppState) (ids : List ℕ) (tid : ℕ)
    (hsrc : s.srcObject = some ids) (hint : s.intervalRef = some tid)
    (htim : s.activeTimers = [tid]) (_hact : s.webcamActive = true)
    (htr : ∀ t ∈ s.tracks, t.stopped = false → t.id ∈ ids) :
    (stopWebcam s).activeTimers = [] ∧
    (stopWebcam s).intervalRef = none ∧
    (∀ t ∈ (stopWebcam s).tracks, t.stopped = true) ∧
    (stopWebcam s).srcObject = none ∧
    (stopWebcam s).prediction = none ∧
    (stopWebcam s).webcamActive = false := by
  refine ⟨?_, ?_, ?_, ?_, ?_, ?_⟩
  · simp only [stopWebcam, hsrc, hint, htim]
    simp
  · simp [stopWebcam, hsrc, hint]
  · intro t ht
    simp only [stopWebcam, hsrc, hint] at ht
    simp only [stopTracks, List.mem_map] at ht
    obtain ⟨u, hu, hut⟩ := ht
    by_cases hid : u.id ∈ ids
    · rw [← hut]; simp [hid]
    · have hstopped : u.stopped = true := by
        by_contra hfalse
        exact hid (htr u hu (by simpa using hfalse))
      rw [← hut]; simp [hid, hstopped]
  · simp [stopWebcam, hsrc, hint]
  · simp [stopWebcam, hsrc, hint]
  · simp [stopWebcam, hsrc, hint]

/-- Witness for C7 at the canonical `Active` state reached by one
successful `startWebcam` from the ready state. -/
theorem C7_stop_releases_all_witness :
    (stopWebcam activeState).activeTimers = [] ∧
    (stopWebcam activeState).intervalRef = none ∧
    (∀ t ∈ (stopWebcam activeState).tracks, t.stopped = true) ∧
    (stopWebcam activeState).srcObject = none ∧
    (stopWebcam activeState).prediction = none ∧
    (stopWebcam activeState).webcamActive = false :=
  C7_stop_releases_all activeState [0] 0 rfl rfl rfl rfl (by decide)

/-- C8: for every probability vector over the fixed class set (length 3,
entries in `[0, 1]`), the `Prediction` emitted by `predictImage` carries a
label drawn from `FRUIT_CLASSES` and a confidence in `[0, 100]`. -/
theorem C8_prediction_wellformed (s : AppState) (probs : List ℚ)
    (hm : s.model = some ()) (hlen : probs.length = FRUIT_CLASSES.length)
    (hrange : ∀ p ∈ probs, 0 ≤ p ∧ p ≤ 1) :
    ∃ pred : Prediction,
      (predictImage (.ok probs) s).state.prediction = some pred ∧
      (∃ label ∈ FRUIT_CLASSES, pred.fruit = some label) ∧
      0 ≤ pred.confidence ∧ pred.confidence ≤ 100 := by
  have hne : probs ≠ [] := by
    intro h
    rw [h] at hlen
    simp [FRUIT_CLASSES] at hlen
  have hmem := jsMax_mem hne
  have hlt := jsIndexOf_lt_length hmem
  have hltLabels : jsIndexOf (jsMax probs) probs < FRUIT_CLASSES.length := by
    rw [← hlen]; exact hlt
  refine ⟨selectPrediction FRUIT_CLASSES probs, ?_, ?_, ?_, ?_⟩
  · simp only [predictImage, hm]
  · refine ⟨FRUIT_CLASSES.get ⟨jsIndexOf (jsMax probs) probs, hltLabels⟩,
      List.get_mem _ _ _, ?_⟩
    simp only [selectPrediction]
    exact List.get?_eq_get hltLabels
  · have hpmem : probs.getD (jsIndexOf (jsMax probs) probs) 0 ∈ probs := by
      rw [List.getD_eq_getElem probs 0 hlt]
      exact List.getElem_mem hlt
    have := (hrange _ hpmem).1
    simp only [selectPrediction]
    nlinarith
  · have hpmem : probs.getD (jsIndexOf (jsMax probs) probs) 0 ∈ probs := by
      rw [List.getD_eq_getElem probs 0 hlt]
      exact List.getElem_mem hlt
    have := (hrange _ hpmem).2
    simp only [selectPrediction]
    nlinarith

/-- Witness for C8 at the mock probability vector `[0.1, 0.7, 0.2]`. -/
theorem C8_prediction_wellformed_witness :
    ∃ pred : Prediction,
      (predictImage (.ok [1/10, 7/10, 2/10]) readyState).state.prediction =
        some pred ∧
      (∃ label ∈ FRUIT_CLASSES, pred.fruit = some label) ∧
      0 ≤ pred.confidence ∧ pred.confidence ≤ 100 :=
  C8_prediction_wellformed readyState [1/10, 7/10, 2/10] rfl
    (by norm_num [FRUIT_CLASSES])
    (by
      intro p hp
      simp only [List.mem_cons, List.not_mem_nil, or_false] at hp
      rcases hp with rfl | rfl | rfl <;> norm_num)

/-- C9: when the forward pass (`model.predict`) or value extraction
(`predictions.data()`) fails unexpectedly, the error is caught at the call
boundary and logged, no exception escapes to crash the application, and
the state — in particular the current `Prediction` — is left unchanged. -/
theorem C9_inference_error_contained (s : AppState) (outcome : ForwardOutcome)
    (hm : s.model = some ())
    (herr : outcome = .errAtPredict ∨ outcome = .errAtData) :
    (predictImage outcome s).errorLogged = true ∧
    (predictImage outcome s).threw = false ∧
    (predictImage outcome s).state = s ∧
    (predictImage outcome s).state.prediction = s.prediction := by
  rcases herr with rfl | rfl <;> simp [predictImage, hm]

/-- Witness for C9: a `model.predict` failure in the ready state is logged
and leaves the state unchanged. -/
theorem C9_inference_error_contained_witness :
    (predictImage .errAtPredict readyState).errorLogged = true ∧
    (predictImage .errAtPredict readyState).threw = false ∧
    (predictImage .errAtPredict readyState).state = readyState ∧
    (predictImage .errAtPredict readyState).state.prediction =
      readyState.prediction :=
  C9_inference_error_contained readyState .errAtPredict rfl (Or.inl rfl)

/-- C10: a `predictImage` call modifies at most the current `Prediction`:
on every path (absent model, success, predict error, extraction error) the
model handle, the loading flag, the webcam flag, the preview image, the
attached stream, the interval handle, the camera tracks, the active timers
and the id counters are all unchanged. -/
theorem C10_predict_frame_effect (s : AppState) (outcome : ForwardOutcome) :
    (predictImage outcome s).state.model = s.model ∧
    (predictImage outcome s).state.isModelLoading = s.isModelLoading ∧
    (predictImage outcome s).state.webcamActive = s.webcamActive ∧
    (predictImage outcome s).state.imagePreview = s.imagePreview ∧
    (predictImage outcome s).state.srcObject = s.srcObject ∧
    (predictImage outcome s).state.intervalRef = s.intervalRef ∧
    (predictImage outcome s).state.tracks = s.tracks ∧
    (predictImage outcome s).state.activeTimers = s.activeTimers ∧
    (predictImage outcome s).state.nextTrackId = s.nextTrackId ∧
    (predictImage outcome s).state.nextTimerId = s.nextTimerId := by
  cases hm : s.model <;> cases outcome <;> simp [predictImage, hm]
